import Mathlib

/-!
Verification of the localchat streaming-response pipeline against its
frontend source (services/api.ts, components/Chat.tsx).

The embedding is a shallow one: the TypeScript functions are translated into
executable Lean definitions over `String` / `List Char` / `List`-based state,
and the claims of the specification are settled as theorems about those
definitions.

Conventions:
- JavaScript strings are Lean `String`s (a structure over `List Char`);
  string helpers that core Lean implements by well-founded recursion are
  re-implemented structurally so that concrete runs reduce in the kernel.
- The asynchronous stream is a list of read results (`ReadEvent`); the
  single-threaded callback interleaving of the source is modelled as a fold.
- Fallible JavaScript operations (array indexing followed by a method call,
  `String.prototype.repeat` with a negative count) are modelled in `Except`,
  so the `try/catch` of `sanitizeMarkdown` is explicit.
-/

/-- Message record from the frontend data model (types.ts / api responses).
The wall-clock `created_at` field is omitted: it is produced by
`new Date().toISOString()` and plays no role in any claim. -/
structure Message where
  id : Int
  chat_id : Int
  role : String
  content : String
deriving Repr, DecidableEq

/-- Errors thrown by the streaming branch of `sendMessage` in services/api.ts:
`Server error: ${response.status}` for a non-ok response and
`No response body received` when the body is missing. No other error is
thrown by that function. -/
inductive SendError where
  | serverError (status : Nat)
  | noResponseBody
deriving Repr, DecidableEq

/-- One result of `reader.read()` inside `readStream`: either a decoded text
chunk, or a transport-level read failure (the `catch` path). -/
inductive ReadEvent where
  | chunk (s : String)
  | fail
deriving Repr, DecidableEq

/-- Observable signals of the stream controller: `options.onChunk(data)`,
`options.onError(error)` and `options.onComplete()`. -/
inductive StreamEvent where
  | fragment (d : String)
  | errorSig
  | completeSig
deriving Repr, DecidableEq

/-- Splitting on the two-character separator used by
`chunk.split('\n\n')` in `readStream`, structurally recursive so that it
reduces in the kernel. Matches JavaScript `String.prototype.split` with a
literal separator (leftmost, non-overlapping). -/
def splitOnNN : List Char → List (List Char)
  | '\n' :: '\n' :: rest => [] :: splitOnNN rest
  | c :: rest =>
    match splitOnNN rest with
    | [] => [[c]]
    | l :: ls => (c :: l) :: ls
  | [] => [[]]

/-- Event framing of `readStream`: each block of a chunk is relevant only if
it starts with `data: `; the payload is `line.substring(6)` and is delivered
to `onChunk` only when non-empty (`if (options?.onChunk && data)`). -/
def processChunk (s : String) : List String :=
  (splitOnNN s.data).filterMap fun l =>
    match l with
    | 'd' :: 'a' :: 't' :: 'a' :: ':' :: ' ' :: rest =>
      if rest.isEmpty then none else some (String.mk rest)
    | _ => none

/-- Full signal trace of `readStream` over a list of read results: every
chunk's data payloads are delivered through `onChunk`; a read failure stops
the loop and fires `onError`; the `finally` block fires `onComplete` on
every exit, both after natural end-of-input and after an error. -/
def readStreamEvents : List ReadEvent → List StreamEvent
  | [] => [.completeSig]
  | .chunk s :: rest => (processChunk s).map .fragment ++ readStreamEvents rest
  | .fail :: _ => [.errorSig, .completeSig]

/-- Payloads delivered to `onChunk` by `readStream` (the failing read, if
any, delivers nothing: the exception is raised by `reader.read()` before any
data is produced). -/
def streamPayloads : List ReadEvent → List String
  | [] => []
  | .chunk s :: rest => processChunk s ++ streamPayloads rest
  | .fail :: _ => []

/-- Predicate: the read sequence contains no transport failure. -/
def noFail (reads : List ReadEvent) : Bool :=
  reads.all fun e =>
    match e with
    | .fail => false
    | .chunk _ => true

/-- Placeholder message built by the streaming branch of `sendMessage`
before the stream is read: temporary id `-1`, assistant role, empty
content. -/
def placeholderMessage (chatId : Int) : Message :=
  { id := -1, chat_id := chatId, role := "assistant", content := "" }

/-- Streaming branch of `sendMessage` in services/api.ts. After the POST it
checks `response.ok`, then `response.body`, then kicks `readStream()` off in
the background *without awaiting it* and returns the placeholder message.
The returned value is therefore a function of the response status/body only;
`reads` (the eventual stream contents) is listed as an argument precisely to
state that the resolved value does not depend on it. The function consults
no per-chat registry of active streams: its result is the same whether or
not another stream is in flight for the chat. -/
def sendMessageStreaming (chatId : Int) (status : Nat) (respOk respHasBody : Bool)
    (reads : List ReadEvent) : Except SendError Message :=
  if !respOk then .error (.serverError status)
  else if !respHasBody then .error .noResponseBody
  else .ok (placeholderMessage chatId)

/-- Disabled flag passed to the message input in Chat.tsx:
`disabled={isTyping || sendMessageMutation.isPending}`. -/
def messageInputDisabled (isTyping isPending : Bool) : Bool :=
  isTyping || isPending

/-- Whitespace accepted by `JSON.parse` around a top-level value: space,
tab, line feed, carriage return. -/
def jsonWs (c : Char) : Bool :=
  [' ', '\t', '\n', '\r'].contains c

/-- Value of a hexadecimal digit, as used in a JSON `\uXXXX` escape,
computed on the code point. -/
def hexVal (c : Char) : Option Nat :=
  let n := c.toNat
  if 48 ≤ n && n ≤ 57 then some (n - 48)
  else if 97 ≤ n && n ≤ 102 then some (n - 87)
  else if 65 ≤ n && n ≤ 70 then some (n - 55)
  else none

/-- Body of a JSON string literal, after the opening quote: returns the
decoded characters and the input remaining after the closing quote, or
`none` when the literal is malformed (unterminated, bad escape, raw control
character). Lone-surrogate `\u` escapes, which JavaScript would keep as
unpaired UTF-16 units, fall outside Lean `Char` and are mapped through
`Char.ofNat`'s default; no claim touches them. -/
def jsonStrChars : List Char → Option (List Char × List Char)
  | [] => none
  | '"' :: rest => some ([], rest)
  | '\\' :: esc =>
    match esc with
    | '"' :: r => (jsonStrChars r).map fun p => ('"' :: p.1, p.2)
    | '\\' :: r => (jsonStrChars r).map fun p => ('\\' :: p.1, p.2)
    | '/' :: r => (jsonStrChars r).map fun p => ('/' :: p.1, p.2)
    | 'b' :: r => (jsonStrChars r).map fun p => ('\x08' :: p.1, p.2)
    | 'f' :: r => (jsonStrChars r).map fun p => ('\x0C' :: p.1, p.2)
    | 'n' :: r => (jsonStrChars r).map fun p => ('\n' :: p.1, p.2)
    | 'r' :: r => (jsonStrChars r).map fun p => ('\r' :: p.1, p.2)
    | 't' :: r => (jsonStrChars r).map fun p => ('\t' :: p.1, p.2)
    | 'u' :: h1 :: h2 :: h3 :: h4 :: r =>
      match hexVal h1, hexVal h2, hexVal h3, hexVal h4 with
      | some a, some b, some c, some d =>
        (jsonStrChars r).map fun p =>
          (Char.ofNat (a * 4096 + b * 256 + c * 16 + d) :: p.1, p.2)
      | _, _, _, _ => none
    | _ => none
  | c :: rest =>
    if c.toNat < 0x20 then none
    else (jsonStrChars rest).map fun p => (c :: p.1, p.2)

/-- Success-and-decode model of `JSON.parse` for string-literal arguments: a
JSON string literal (optionally surrounded by JSON whitespace) decodes to
its contents; any other argument is a throw (`none`). This is narrower than
full `JSON.parse` — valid non-string JSON such as numbers or arrays would
parse in JavaScript — but the only argument that ever reaches `JSON.parse`
in the running program is `undefined`, coerced to the text `undefined`
(see `onChunkHandler`), which no reading of JSON accepts, and on that
argument the model agrees: `jsonParse "undefined" = none`. -/
def jsonParse (s : String) : Option String :=
  match s.data.dropWhile jsonWs with
  | '"' :: rest =>
    match jsonStrChars rest with
    | some (content, rem) =>
      if (rem.dropWhile jsonWs).isEmpty then some (String.mk content) else none
    | none => none
  | _ => none

/-- JavaScript value held by the handler's local `data`: either a string or
`undefined`. -/
inductive JsVal where
  | str (s : String)
  | undef
deriving Repr, DecidableEq

/-- Property read `event.data` inside the `onChunk` handler of Chat.tsx.
The handler is declared over a `MessageEvent`, but `readStream` in
services/api.ts invokes `options.onChunk(data)` with the payload *string*
itself; a string primitive (boxed on property access) has no `data`
property, so the read yields `undefined` for every delivered payload. -/
def jsDataProp (event : String) : JsVal :=
  JsVal.undef

/-- Strict equality test `data === '[DONE]'` on the handler's `data` value:
false for `undefined`. -/
def jsIsSentinel : JsVal → Bool
  | .str s => s == "[DONE]"
  | .undef => false

/-- The call `JSON.parse(data)` on the handler's `data` value: a non-string
argument is first coerced with `String()`; `String(undefined)` is the text
`undefined`, which is not valid JSON, so the call throws (`none`). -/
def jsonParseData : JsVal → Option String
  | .str s => jsonParse s
  | .undef => jsonParse "undefined"

/-- String coercion applied by `prev + data` in the fallback branch:
`String(undefined)` is the text `undefined`. -/
def jsToString : JsVal → String
  | .str s => s
  | .undef => "undefined"

/-- Component state of Chat.tsx that the streaming pipeline touches:
`chatId` (route param as a number), the `streamingMessage` draft, the
`isTyping` flag, the optimistic `localMessages` list, and a counter of
`refetchMessages()` invocations standing in for the refetch side effect. -/
structure ChatState where
  chatId : Int
  streamingMessage : String
  isTyping : Bool
  localMessages : List Message
  refetchCount : Nat
deriving Repr, DecidableEq

/-- Handler `streamingOptions.onChunk` of Chat.tsx, applied to the argument
`readStream` actually passes — the payload string. The handler body reads
`const data = event.data`, intends the sentinel `[DONE]` to clear the
typing flag and trigger a refetch, and otherwise JSON-parses `data` and
appends the decoded string, falling back to appending `data` raw. Because
the argument is the payload string and not a `MessageEvent`, `data` is
`undefined` on every call: the sentinel branch never fires,
`JSON.parse(undefined)` always throws, and the catch appends
`prev + undefined`, i.e. the text `undefined`, regardless of the payload. -/
def onChunkHandler (st : ChatState) (event : String) : ChatState :=
  let data := jsDataProp event
  if jsIsSentinel data then
    { st with isTyping := false, refetchCount := st.refetchCount + 1 }
  else
    match jsonParseData data with
    | some s => { st with streamingMessage := st.streamingMessage ++ s }
    | none => { st with streamingMessage := st.streamingMessage ++ jsToString data }

/-- Folding a list of delivered payloads through the `onChunk` handler, the
order being exactly the delivery order of `readStream`. -/
def runPayloads (ps : List String) (st : ChatState) : ChatState :=
  ps.foldl onChunkHandler st

/-- Synchronisation effect of Chat.tsx
(`useEffect(... if (messages && messages.length > 0) setLocalMessages(messages) ...)`):
the refetched server list replaces the local optimistic view whenever it is
non-empty, and is ignored when empty. -/
def syncLocalMessages (messages localView : List Message) : List Message :=
  if messages.length > 0 then messages else localView

/-- Characters removed by JavaScript `String.prototype.trim`: the WhiteSpace
and LineTerminator productions of the language (ASCII whitespace, NBSP,
ZWNBSP, the Unicode space separators, and the line/paragraph separators). -/
def isJsWhitespace (c : Char) : Bool :=
  let n := c.toNat
  [9, 10, 11, 12, 13, 32, 0xA0, 0x1680, 0x2028, 0x2029, 0x202F,
    0x205F, 0x3000, 0xFEFF].contains n
  || (0x2000 ≤ n && n ≤ 0x200A)

/-- JavaScript `String.prototype.trim`. -/
def jsTrim (s : String) : String :=
  String.mk (((s.data.dropWhile isJsWhitespace).reverse.dropWhile isJsWhitespace).reverse)

/-- Splitting on a single-character separator, as in `content.split('\n')`
and `line.split('|')`, structurally recursive. -/
def splitOnChar (sep : Char) : List Char → List (List Char)
  | [] => [[]]
  | c :: rest =>
    match splitOnChar sep rest with
    | [] => [[c]]
    | l :: ls => if c = sep then [] :: l :: ls else (c :: l) :: ls

/-- Lines of a string, `content.split('\n')`. -/
def splitLines (s : String) : List String :=
  (splitOnChar '\n' s.data).map String.mk

/-- Rejoining lines, `lines.join('\n')`. -/
def joinLines : List String → String
  | [] => ""
  | [l] => l
  | l :: ls => l ++ "\n" ++ joinLines ls

/-- Test `line.startsWith('|')` for the single-character prefix. -/
def startsWithPipe (s : String) : Bool :=
  match s.data with
  | '|' :: _ => true
  | _ => false

/-- Test `line.endsWith('|')` for the single-character suffix. -/
def endsWithPipe (s : String) : Bool :=
  match s.data.getLast? with
  | some '|' => true
  | _ => false

/-- Divider-row test of the sanitizer,
`line.replace(/[^\-|]/g, '') === line`: true exactly when every character
of the (trimmed) line is a dash or a pipe. Note that a conventional spaced
divider such as `| --- | --- |` fails this test. -/
def isDividerLine (s : String) : Bool :=
  s.data.all fun c => c == '-' || c == '|'

/-- Cell count used for the synthesized divider:
`lines[tableStartIndex].split('|').length - 2` (computed on the untrimmed
header line), as an integer since it can be negative in JavaScript. -/
def headerCellsOf (line : String) : Int :=
  ((splitOnChar '|' line.data).length : Int) - 2

/-- JavaScript array read `lines[i]` followed by a method call on the
result: yields the element in bounds and a TypeError (modelled as
`Except.error`) when the index is negative or past the end, since the read
then produces `undefined`. -/
def jsIndex (xs : List String) (i : Int) : Except Unit String :=
  if i < 0 then .error ()
  else
    match xs.get? i.toNat with
    | some s => .ok s
    | none => .error ()

/-- JavaScript `str.repeat(n)` with an integer count: a negative count
throws a RangeError (modelled as `Except.error`). -/
def jsRepeat (s : String) (n : Int) : Except Unit String :=
  if n < 0 then .error ()
  else .ok (String.join (List.replicate n.toNat s))

/-- Insertion splice `lines.splice(k, 0, d)` at a non-negative position
(clamped to the array length, as splice clamps); the sanitizer only ever
splices at `tableStartIndex + 1` with a valid header index, so the
negative-start counting of splice is never exercised. -/
def jsInsertAt (xs : List String) (k : Int) (d : String) : List String :=
  xs.take k.toNat ++ [d] ++ xs.drop k.toNat

/-- Divider row expression of the sanitizer:
`'|' + ' --- |'.repeat(headerCells > 0 ? headerCells : 1)`. -/
def mkDivider (headerCells : Int) : Except Unit String :=
  (jsRepeat " --- |" (if headerCells > 0 then headerCells else 1)).map
    fun d => "|" ++ d

/-- Table-repair loop of `sanitizeMarkdown`, expressed as a structural
recursion over the remaining lines with the already-visited lines in `acc`
(so the JavaScript loop index `i` is `acc.length`). The mutable loop of the
source mutates `lines` in place and skips the inserted row with `i++`; here
the insertion lands inside `acc` (always at a position `≤ acc.length`) and
the cursor simply advances, which is the same traversal. The two fallible
spots — reading `lines[tableStartIndex]` (a TypeError on an invalid index
via `undefined.split`) and `' --- |'.repeat` (a RangeError on a negative
count) — stay in `Except`. -/
def tableGo (acc : List String) (inTable : Bool) (tableStartIndex : Int)
    (hasHeader hasDivider : Bool) : List String → Except Unit (List String)
  | [] =>
    if inTable && hasHeader && !hasDivider then
      match jsIndex acc tableStartIndex with
      | .error e => .error e
      | .ok header =>
        match mkDivider (headerCellsOf header) with
        | .error e => .error e
        | .ok divider => .ok (jsInsertAt acc (tableStartIndex + 1) divider)
    else .ok acc
  | l :: rest =>
    let line := jsTrim l
    if startsWithPipe line && endsWithPipe line then
      let inT := true
      let tsi := if !inTable then (acc.length : Int) else tableStartIndex
      let hh := if inT && ((acc.length : Int) == tsi) then true else hasHeader
      let hd :=
        if inT && ((acc.length : Int) == tsi + 1) && isDividerLine line then true
        else hasDivider
      tableGo (acc ++ [l]) inT tsi hh hd rest
    else if inTable && line == "" then
      if hasHeader && !hasDivider then
        match jsIndex acc tableStartIndex with
        | .error e => .error e
        | .ok header =>
          match mkDivider (headerCellsOf header) with
          | .error e => .error e
          | .ok divider =>
            tableGo (jsInsertAt acc (tableStartIndex + 1) divider ++ [l])
              false tableStartIndex false false rest
      else tableGo (acc ++ [l]) false tableStartIndex false false rest
    else tableGo (acc ++ [l]) inTable tableStartIndex hasHeader hasDivider rest

/-- Test for three consecutive backticks at the head of the input, the
trigger of the code-fence regex `/` + "```([^\n]*)(\n[\s\S]*?)?(```)?" + `/g`. -/
def isTicks3 : List Char → Bool
  | '\x60' :: '\x60' :: '\x60' :: _ => true
  | _ => false

/-- Whether three consecutive backticks occur anywhere in the input. -/
def hasTripleBacktick : List Char → Bool
  | [] => false
  | c :: rest => isTicks3 (c :: rest) || hasTripleBacktick rest

/-- Code-fence pass of `sanitizeMarkdown`:
`content.replace(/` + "```([^\n]*)(\n[\s\S]*?)?(```)?" + `/g, cb)` where the
callback rebuilds an unterminated match as ``` + lang + code + ```.
With the greedy `[^\n]*` for the language and the lazy optional middle
group, a match consumes the opening backticks, the whole rest of the line,
and at most one following newline; the closing group matches only when three
backticks directly follow that newline, in which case the match is kept
unchanged. Otherwise the callback appends a closing fence after the matched
text and scanning resumes right after the match. `fenceGo false` is the
scanning state, `fenceGo true` the state after an opener while emitting the
language characters. -/
def fenceGo : Bool → List Char → List Char
  | false, [] => []
  | false, '\x60' :: '\x60' :: '\x60' :: rest => '\x60' :: '\x60' :: '\x60' :: fenceGo true rest
  | false, c :: rest => c :: fenceGo false rest
  | true, [] => ['\x60', '\x60', '\x60']
  | true, '\n' :: '\x60' :: '\x60' :: '\x60' :: tl => '\n' :: '\x60' :: '\x60' :: '\x60' :: fenceGo false tl
  | true, '\n' :: tl => '\n' :: '\x60' :: '\x60' :: '\x60' :: fenceGo false tl
  | true, c :: rest => c :: fenceGo true rest

/-- Complete code-fence pass over a string. -/
def fenceFix (s : String) : String :=
  String.mk (fenceGo false s.data)

/-- Whether `---` occurs in the input, `content.includes('---')`. -/
def hasTripleDash : List Char → Bool
  | [] => false
  | '-' :: '-' :: '-' :: _ => true
  | _ :: rest => hasTripleDash rest

/-- Guard of the table repair:
`content.includes('|') && content.includes('---')`. Note the second
conjunct: repair runs only when the input already contains three dashes
somewhere. -/
def hasTableStart (content : String) : Bool :=
  content.data.any (fun c => c == '|') && hasTripleDash content.data

/-- Table-repair pass of `sanitizeMarkdown`: behind the `hasTableStart`
guard, split into lines, run the repair loop, and rejoin. -/
def sanitizeTablePass (content : String) : Except Unit String :=
  if hasTableStart content then
    (tableGo [] false (-1) false false (splitLines content)).map joinLines
  else .ok content

/-- Body of the `try` block of `sanitizeMarkdown`: the table pass followed
by the code-fence pass. -/
def sanitizeBody (content : String) : Except Unit String :=
  (sanitizeTablePass content).map fenceFix

/-- The `sanitizeMarkdown` helper of Chat.tsx: empty content short-circuits
to the empty string; otherwise the repair body runs and, should it throw,
the catch clause returns the original content unmodified. -/
def sanitizeMarkdown (content : String) : String :=
  if content = "" then ""
  else
    match sanitizeBody content with
    | .ok t => t
    | .error _ => content

/-- Transport-abort primitive invoked by `handleStopStreaming`. Modelled
from the spec: `cancelStreamingResponse` is imported from services/api by
Chat.tsx but its definition is not part of the sources; per the spec it
"aborts the underlying transport connection immediately" and "does not
erase fragments already delivered", so it has no effect on the component
state modelled here. -/
def cancelStreamingResponse : Unit := ()

/-- Handler `handleStopStreaming` of Chat.tsx: capture the current draft,
cancel the transport, clear the typing flag, and, when the captured draft is
a non-blank string, append a local assistant entry whose content is the
sanitized draft (`now` stands for the `Date.now()` temporary id). The
bounded refetch polling that follows only re-reads server state and is not
part of the component state modelled here. -/
def handleStopStreaming (st : ChatState) (now : Int) : ChatState :=
  let finalMessage := st.streamingMessage
  let st1 := { st with isTyping := false }
  if finalMessage != "" && jsTrim finalMessage != "" then
    { st1 with
      localMessages := st1.localMessages ++
        [{ id := now, chat_id := st.chatId, role := "assistant",
           content := sanitizeMarkdown finalMessage }] }
  else st1

/-- Concrete user message used in witnesses and counterexamples. -/
def userMsg : Message := { id := 1, chat_id := 1, role := "user", content := "hi" }

/-- Concrete assistant message used in witnesses and counterexamples. -/
def asstMsg : Message := { id := 2, chat_id := 1, role := "assistant", content := "there" }

/-- Read sequence of a well-formed sentinel-terminated stream: one chunk
carrying the data blocks `"Hi"` and `[DONE]`. -/
def sentinelReads : List ReadEvent :=
  [ReadEvent.chunk "data: \"Hi\"\n\ndata: [DONE]\n\n"]

/-- Chat component state right after a streaming send begins: draft
cleared, typing flag set, no optimistic entries yet. -/
def initialChatState : ChatState :=
  { chatId := 1, streamingMessage := "", isTyping := true,
    localMessages := [], refetchCount := 0 }

theorem fenceGo_false_cons (c : Char) (rest : List Char)
    (hne : isTicks3 (c :: rest) = false) :
    fenceGo false (c :: rest) = c :: fenceGo false rest := by
  rw [fenceGo.eq_def]
  split
  · rename_i heq; simp at heq
  · rename_i heq
    rw [heq] at hne
    simp [isTicks3] at hne
  · rename_i heq
    injection heq with h1 h2
    subst h1; subst h2
    rfl
  · rename_i hb heq; exact absurd hb (by simp)
  · rename_i hb heq; exact absurd hb (by simp)
  · rename_i hb heq; exact absurd hb (by simp)
  · rename_i hb heq; exact absurd hb (by simp)

theorem fenceGo_id (cs : List Char) (h : hasTripleBacktick cs = false) :
    fenceGo false cs = cs := by
  induction cs with
  | nil => rfl
  | cons c rest ih =>
    rw [hasTripleBacktick] at h
    simp only [Bool.or_eq_false_iff] at h
    rw [fenceGo_false_cons c rest h.1, ih h.2]

theorem fenceFix_id (s : String) (h : hasTripleBacktick s.data = false) :
    fenceFix s = s := by
  rw [fenceFix, fenceGo_id s.data h]

theorem readStreamEvents_ne_nil (reads : List ReadEvent) :
    readStreamEvents reads ≠ [] := by
  cases reads with
  | nil => simp [readStreamEvents]
  | cons e rest =>
    cases e with
    | chunk s =>
      rw [readStreamEvents]
      intro hcontra
      rcases List.append_eq_nil.mp hcontra with ⟨_, h2⟩
      exact readStreamEvents_ne_nil rest h2
    | fail => simp [readStreamEvents]

theorem jsonParse_undefined : jsonParse "undefined" = none := by
  decide

theorem onChunkHandler_appends_undefined (st : ChatState) (event : String) :
    onChunkHandler st event
      = { st with streamingMessage := st.streamingMessage ++ "undefined" } := by
  rw [onChunkHandler]
  simp [jsDataProp, jsIsSentinel, jsonParseData, jsonParse_undefined, jsToString]

theorem jsIndex_ok (xs : List String) (i : Int) (h0 : 0 ≤ i) (hlen : i.toNat < xs.length) :
    ∃ s, jsIndex xs i = Except.ok s := by
  cases hg : xs.get? i.toNat with
  | none =>
    exfalso
    rw [List.get?_eq_none] at hg
    omega
  | some s =>
    refine ⟨s, ?_⟩
    rw [jsIndex, if_neg (by omega), hg]

theorem mkDivider_ok (n : Int) : ∃ d, mkDivider n = Except.ok d := by
  rw [mkDivider, jsRepeat]
  rw [if_neg ?_]
  · exact ⟨_, rfl⟩
  · split <;> omega

theorem tableGo_ok (ls : List String) : ∀ (acc : List String) (inTable : Bool)
    (tsi : Int) (hh hd : Bool),
    (hh = true → 0 ≤ tsi ∧ tsi.toNat < acc.length) →
    ∃ out, tableGo acc inTable tsi hh hd ls = Except.ok out := by
  induction ls with
  | nil =>
    intro acc inTable tsi hh hd hinv
    rw [tableGo]
    by_cases hc : (inTable && hh && !hd) = true
    · rw [if_pos hc]
      have hhh : hh = true := by
        simp only [Bool.and_eq_true] at hc
        exact hc.1.2
      obtain ⟨hs, hget⟩ := jsIndex_ok acc tsi (hinv hhh).1 (hinv hhh).2
      rw [hget]
      dsimp only
      obtain ⟨d, hdiv⟩ := mkDivider_ok (headerCellsOf hs)
      rw [hdiv]
      exact ⟨_, rfl⟩
    · rw [if_neg hc]
      exact ⟨acc, rfl⟩
  | cons l rest ih =>
    intro acc inTable tsi hh hd hinv
    rw [tableGo]
    dsimp only
    by_cases hp : (startsWithPipe (jsTrim l) && endsWithPipe (jsTrim l)) = true
    · rw [if_pos hp]
      apply ih
      intro h2
      generalize ht2 : (if !inTable then ((acc.length : Int)) else tsi) = t2 at h2 ⊢
      have ht2cases : t2 = ((acc.length : Int)) ∨ t2 = tsi := by
        rw [← ht2]
        cases inTable <;> simp
      rw [List.length_append, List.length_singleton]
      by_cases hA : (((acc.length : Int)) == t2) = true
      · have hEq : t2 = ((acc.length : Int)) := (beq_iff_eq.mp hA).symm
        subst hEq
        constructor
        · omega
        · omega
      · rw [Bool.true_and, if_neg (by simpa using hA)] at h2
        rcases ht2cases with hcase | hcase
        · subst hcase
          exact ⟨by omega, by omega⟩
        · subst hcase
          obtain ⟨ha, hbnd⟩ := hinv h2
          exact ⟨ha, by omega⟩
    · rw [if_neg hp]
      by_cases hb : (inTable && (jsTrim l == "")) = true
      · rw [if_pos hb]
        by_cases hc2 : (hh && !hd) = true
        · rw [if_pos hc2]
          have hhh : hh = true := by
            simp only [Bool.and_eq_true] at hc2
            exact hc2.1
          obtain ⟨hs, hget⟩ := jsIndex_ok acc tsi (hinv hhh).1 (hinv hhh).2
          rw [hget]
          dsimp only
          obtain ⟨d, hdiv⟩ := mkDivider_ok (headerCellsOf hs)
          rw [hdiv]
          apply ih
          intro hcontra
          exact absurd hcontra (by decide)
        · rw [if_neg hc2]
          apply ih
          intro hcontra
          exact absurd hcontra (by decide)
      · rw [if_neg hb]
        apply ih
        intro h2
        obtain ⟨ha, hbnd⟩ := hinv h2
        refine ⟨ha, ?_⟩
        rw [List.length_append, List.length_singleton]
        omega

theorem sanitizeBody_ok (content : String) : ∃ t, sanitizeBody content = Except.ok t := by
  rw [sanitizeBody, sanitizeTablePass]
  by_cases hg : hasTableStart content = true
  · rw [if_pos hg]
    obtain ⟨out, hout⟩ := tableGo_ok (splitLines content) [] false (-1) false false
      (fun h => absurd h (by decide))
    rw [hout]
    exact ⟨_, rfl⟩
  · rw [if_neg hg]
    exact ⟨_, rfl⟩

/-- C9: for every input string, including arbitrary malformed text, the
sanitizer's repair body never reaches a throwing operation (the `Except`
model of `lines[tableStartIndex].split` and `' --- |'.repeat` always
returns `ok`), so `sanitizeMarkdown` always returns that repaired string;
the catch clause that would return the original input on a throw is present
in the definition of `sanitizeMarkdown` but is never taken. -/
theorem c9_sanitizer_never_throws (content : String) :
    ∃ t, sanitizeBody content = Except.ok t ∧ sanitizeMarkdown content = t := by
  obtain ⟨t, ht⟩ := sanitizeBody_ok content
  refine ⟨t, ht, ?_⟩
  rw [sanitizeMarkdown]
  by_cases h0 : content = ""
  · rw [if_pos h0]
    subst h0
    have hempty : sanitizeBody "" = Except.ok "" := rfl
    rw [hempty] at ht
    exact Except.ok.inj ht
  · rw [if_neg h0, ht]

/-- C5 (code bug): the claim describes the evident intent of the handler -
a sentinel-terminated stream should accumulate exactly the decoded
fragments before `[DONE]` - but `readStream` passes the payload string to
a handler that reads `event.data` on it, so `data` is `undefined` on every
delivery. At the failing input (payloads `"Hi"` then `[DONE]`): the
framing layer does deliver the two payloads in order, yet the draft
becomes `undefinedundefined` - the sentinel is not dropped but appends
text like any other payload, the typing flag is never cleared and no
refetch is triggered by the sentinel branch; only the end-of-input
completion signal still fires. -/
theorem c5_sentinel_dead_branch_eval :
    streamPayloads sentinelReads = ["\"Hi\"", "[DONE]"]
      ∧ (runPayloads (streamPayloads sentinelReads) initialChatState).streamingMessage
        = "undefinedundefined"
      ∧ (runPayloads (streamPayloads sentinelReads) initialChatState).isTyping = true
      ∧ (runPayloads (streamPayloads sentinelReads) initialChatState).refetchCount = 0
      ∧ (readStreamEvents sentinelReads).getLast? = some StreamEvent.completeSig := by
  refine ⟨by decide, by decide, by decide, by decide, by decide⟩

/-- C4 counterexample: a stream delivering one data block and then hitting a
transport read failure. The claim says a read failure terminates the
sequence with the error signal and not with a completion signal, but the
`finally` block of `readStream` fires `onComplete` unconditionally, so the
trace ends `onError` *then* `onComplete`. -/
theorem c4_counterexample :
    readStreamEvents [ReadEvent.chunk "data: hi\n\n", ReadEvent.fail]
        = [StreamEvent.fragment "hi", StreamEvent.errorSig, StreamEvent.completeSig]
      ∧ StreamEvent.completeSig ∈ readStreamEvents [ReadEvent.chunk "data: hi\n\n", ReadEvent.fail] := by
  constructor
  · rfl
  · decide

/-- C4 amended: the completion signal fires on *every* termination of
`readStream`, natural or erroneous — the trace always ends with
`onComplete`. A transport read failure yields no partial fragment from the
failing read and fires `onError`, but `onComplete` still follows from the
`finally` block: the trace is the fragments of the chunks read before the
failure, then `onError`, then `onComplete`. -/
theorem c4_error_then_completion :
    (∀ reads, (readStreamEvents reads).getLast? = some StreamEvent.completeSig)
    ∧ (∀ pre rest, noFail pre = true →
        readStreamEvents (pre ++ ReadEvent.fail :: rest)
          = (streamPayloads pre).map StreamEvent.fragment
              ++ [StreamEvent.errorSig, StreamEvent.completeSig]) := by
  constructor
  · intro reads
    induction reads with
    | nil => rfl
    | cons e rest ih =>
      cases e with
      | chunk s =>
        rw [readStreamEvents,
          List.getLast?_append_of_ne_nil _ (readStreamEvents_ne_nil rest)]
        exact ih
      | fail => rfl
  · intro pre rest
    induction pre with
    | nil =>
      intro _
      rfl
    | cons e pre ih =>
      intro h
      cases e with
      | chunk s =>
        simp only [noFail, List.all_cons, Bool.and_eq_true] at h
        rw [List.cons_append, readStreamEvents, streamPayloads,
          ih (by simp [noFail, h.2]), List.map_append, List.append_assoc]
      | fail => simp [noFail] at h

/-- C4 witness: the amended theorem applied to the empty prefix and an
immediately failing read. -/
theorem c4_witness :
    (readStreamEvents []).getLast? = some StreamEvent.completeSig
      ∧ readStreamEvents ([] ++ ReadEvent.fail :: [])
        = (streamPayloads []).map StreamEvent.fragment
            ++ [StreamEvent.errorSig, StreamEvent.completeSig] :=
  ⟨c4_error_then_completion.1 [], c4_error_then_completion.2 [] [] (by decide)⟩

/-- C6 (code bug): the claim describes the handler's JSON-fallback intent,
but in the running code `data = event.data` is `undefined` for every
delivered payload, `JSON.parse(undefined)` throws (its argument is coerced
to the invalid-JSON text `undefined`), and the catch appends
`prev + undefined`. Evaluated at the failing payload `hello`: the appended
text is `undefined`, not `hello`. -/
theorem c6_fallback_dead_branch_eval :
    jsDataProp "hello" = JsVal.undef
      ∧ jsonParseData (jsDataProp "hello") = none
      ∧ (onChunkHandler initialChatState "hello").streamingMessage = "undefined"
      ∧ (onChunkHandler initialChatState "hello").streamingMessage ≠ "hello" := by
  refine ⟨rfl, by decide, by decide, by decide⟩

/-- C7 (code bug): `handleStopStreaming` itself salvages as claimed - a
non-blank draft is sanitized and materialized as a local assistant entry -
but the draft never holds the delivered fragments: each delivery of `Hel`,
`lo wor`, `ld` appends the text `undefined` (the handler reads
`event.data` on the payload string), so stopping materializes an entry
with content `undefinedundefinedundefined`, not the claimed
`Hello world`. -/
theorem c7_salvage_of_corrupted_draft_eval :
    (runPayloads ["Hel", "lo wor", "ld"] initialChatState).streamingMessage
        = "undefinedundefinedundefined"
      ∧ (handleStopStreaming
            (runPayloads ["Hel", "lo wor", "ld"] initialChatState) 5).localMessages
        = [{ id := 5, chat_id := 1, role := "assistant",
             content := "undefinedundefinedundefined" }]
      ∧ (handleStopStreaming
            (runPayloads ["Hel", "lo wor", "ld"] initialChatState) 5).localMessages
        ≠ [{ id := 5, chat_id := 1, role := "assistant", content := "Hello world" }] := by
  refine ⟨by decide, by decide, by decide⟩

/-- C1 counterexample: the claim says a second `sendMessage` started while a
stream is already in flight for the chat fails with a StreamAlreadyActive
error. But `sendMessage` consults no record of active streams — it is a
pure function of the response (see `sendMessageStreaming`) — so a second
call under a successful response succeeds and returns the placeholder
exactly like the first; no error of any kind is produced, and no
StreamAlreadyActive error even exists in its error repertoire
(`SendError`). -/
theorem c1_counterexample :
    sendMessageStreaming 1 200 true true [ReadEvent.chunk "data: hi\n\n"]
        = Except.ok (placeholderMessage 1)
      ∧ (sendMessageStreaming 1 200 true true [ReadEvent.chunk "data: hi\n\n"]).isOk = true := by
  constructor
  · rfl
  · rfl

/-- C1 amended: starting a second streaming send while one is in flight is
not rejected by the controller: `sendMessage` performs no active-stream
check, so any streaming call with an ok, body-carrying response succeeds
with the placeholder, regardless of what any concurrent stream delivers.
Double submission is prevented only at the UI layer, where the message
input is disabled whenever `isTyping` is set. A single shared
`streamingMessage` draft state means concurrent streams would interleave
into one provisional entry rather than create two. -/
theorem c1_no_stream_already_active_guard :
    (∀ (chatId : Int) (status : Nat) (reads : List ReadEvent),
        sendMessageStreaming chatId status true true reads
          = Except.ok (placeholderMessage chatId))
    ∧ (∀ isPending, messageInputDisabled true isPending = true) := by
  constructor
  · intro chatId status reads
    rfl
  · intro isPending
    rfl

/-- C10: in streaming mode with a successful response (ok status and a
body), `sendMessage` resolves with the placeholder message — id `-1`, role
`assistant`, empty content — and the resolved value is independent of the
stream contents (it is returned before the stream is consumed), hence never
the persisted assistant message. -/
theorem c10_placeholder_resolution (chatId : Int) (status : Nat)
    (reads reads2 : List ReadEvent) :
    sendMessageStreaming chatId status true true reads
        = Except.ok (placeholderMessage chatId)
      ∧ sendMessageStreaming chatId status true true reads
        = sendMessageStreaming chatId status true true reads2
      ∧ (placeholderMessage chatId).id = -1
      ∧ (placeholderMessage chatId).role = "assistant"
      ∧ (placeholderMessage chatId).content = "" := by
  exact ⟨rfl, rfl, rfl, rfl, rfl⟩

/-- C2 counterexample: the messages-sync effect replaces the local view by
the refetched list whenever the refetched list is non-empty — also when it
is strictly shorter than the local view, contrary to the claim. Here the
local view holds two messages, the refetch returns one, and the local view
is replaced (not retained). -/
theorem c2_counterexample :
    [userMsg].length < [userMsg, asstMsg].length
      ∧ syncLocalMessages [userMsg] [userMsg, asstMsg] = [userMsg]
      ∧ syncLocalMessages [userMsg] [userMsg, asstMsg] ≠ [userMsg, asstMsg] := by
  refine ⟨by decide, rfl, by decide⟩

/-- C2 amended: the local optimistic view is retained only when the
refetched message list is empty; any non-empty refetched list replaces the
local view wholesale, even when it is shorter than the local view. -/
theorem c2_replace_unless_empty (messages localView : List Message) :
    (messages.length = 0 → syncLocalMessages messages localView = localView)
      ∧ (messages.length > 0 → syncLocalMessages messages localView = messages) := by
  constructor
  · intro h
    rw [syncLocalMessages, if_neg (by omega)]
  · intro h
    rw [syncLocalMessages, if_pos h]

/-- C2 witness: an empty refetch keeps the local view; a non-empty refetch
replaces it. -/
theorem c2_witness :
    syncLocalMessages [] [userMsg] = [userMsg]
      ∧ syncLocalMessages [userMsg] [userMsg, asstMsg] = [userMsg] :=
  ⟨(c2_replace_unless_empty [] [userMsg]).1 rfl,
    (c2_replace_unless_empty [userMsg] [userMsg, asstMsg]).2 (by decide)⟩

/-- C3 counterexample: the spec's own example — the header row `| A | B |`
followed immediately by a blank line — is returned *unchanged* by the
sanitizer: the repair is gated on `content.includes('---')`, and this input
contains no `---`, so no separator row is inserted. -/
theorem c3_counterexample :
    sanitizeMarkdown "| A | B |\n\nx" = "| A | B |\n\nx"
      ∧ sanitizeMarkdown "| A | B |\n\nx" ≠ "| A | B |\n| --- | --- |\n\nx" := by
  constructor
  · decide
  · decide

/-- C3 amended: the separator-row insertion happens only when the input
already contains `---` somewhere (the `hasTableStart` guard). Under that
guard the behaviour is as claimed: a pipe-delimited header row not followed
by a divider row gets a `| --- |`-cell separator inserted directly after
it, with one dash cell per header column (`split('|').length - 2`),
minimum one, both when the table ends at a blank line and when it ends at
the end of the content. -/
theorem c3_guarded_table_repair :
    sanitizeMarkdown "| A | B |\n\n---" = "| A | B |\n| --- | --- |\n\n---"
      ∧ sanitizeMarkdown "| A |\n\n---" = "| A |\n| --- |\n\n---"
      ∧ sanitizeMarkdown "|\n\n---" = "|\n| --- |\n\n---"
      ∧ sanitizeMarkdown "---\n| A | B |" = "---\n| A | B |\n| --- | --- |" := by
  refine ⟨by decide, by decide, by decide, by decide⟩

/-- C8 counterexample: the sanitizer is not idempotent. A lone opening
fence `(three backticks)` is closed to six backticks by one pass, but a
second pass treats the closing fence's backticks as part of the language
of a new opening fence and appends yet another closing fence, giving nine
backticks. -/
theorem c8_counterexample :
    sanitizeMarkdown (sanitizeMarkdown "```") ≠ sanitizeMarkdown "```" := by
  decide

/-- C8 amended: the sanitizer is idempotent on the inputs it leaves alone —
whenever the input triggers neither repair (no three consecutive backticks
and the table guard `hasTableStart` is off), the sanitizer is the identity
and hence idempotent there. In general idempotence fails (see the
counterexample: repeated sanitization keeps growing fences). -/
theorem c8_idempotent_on_untouched (content : String)
    (hT : hasTableStart content = false)
    (hB : hasTripleBacktick content.data = false) :
    sanitizeMarkdown content = content
      ∧ sanitizeMarkdown (sanitizeMarkdown content) = sanitizeMarkdown content := by
  have hid : sanitizeMarkdown content = content := by
    rw [sanitizeMarkdown]
    by_cases h0 : content = ""
    · rw [if_pos h0, h0]
    · rw [if_neg h0]
      rw [sanitizeBody, sanitizeTablePass, if_neg (by simp [hT])]
      dsimp only [Except.map]
      rw [fenceFix_id content hB]
  exact ⟨hid, by rw [hid, hid]⟩

/-- C8 witness: plain prose is untouched and idempotent. -/
theorem c8_witness :
    sanitizeMarkdown "hello world" = "hello world"
      ∧ sanitizeMarkdown (sanitizeMarkdown "hello world") = sanitizeMarkdown "hello world" :=
  c8_idempotent_on_untouched "hello world" (by decide) (by decide)
